import Mathlib

/-!
Verification development for the Salesforce Event Log File connector
(`src/newrelic_logging/salesforce.py`).

The Python source is shallowly embedded: dictionaries become association
lists over a `Value` type, fallible operations return `Except PyError`,
external collaborators (the Redis-backed dedup cache, the HTTP session,
the `hashlib` digest, the wall clock) are passed in explicitly as data,
and the loops of the source become structural or well-founded recursion.
-/

set_option autoImplicit false
set_option maxRecDepth 100000

namespace Sf

/-- A JSON/CSV value as manipulated by the Python source: strings, integers
and nested dictionaries (the shapes the connector actually touches). -/
inductive Value where
  | str : String → Value
  | int : Int → Value
  | dict : List (String × Value) → Value

/-- A Python dictionary with string keys, embedded as an association list
(first occurrence of a key wins, as dictionaries hold each key once). -/
abbrev Row := List (String × Value)

/-- Dictionary read: `row[k]` / `row.get(k)`. Returns the first binding of `k`. -/
def dget : Row → String → Option Value
  | [], _ => none
  | (k', v) :: rest, k => if k' == k then some v else dget rest k

/-- Membership test `k in row`. -/
def dcontains (r : Row) (k : String) : Bool :=
  (dget r k).isSome

/-- Dictionary write `row[k] = v`: update the binding in place if the key is
present, otherwise append it at the end (Python insertion order). -/
def dset : Row → String → Value → Row
  | [], k, v => [(k, v)]
  | (k', v') :: rest, k, v =>
    if k' == k then (k', v) :: rest else (k', v') :: dset rest k v

/-- Dictionary removal, as performed by `row.pop(k, default)`: drop the
binding of `k` when present. -/
def dremove : Row → String → Row
  | [], _ => []
  | (k', v') :: rest, k => if k' == k then rest else (k', v') :: dremove rest k

/-- Python `str()` of a value. Only strings and integers flow into the
`str(...)` calls of the source; dictionaries get a placeholder rendering. -/
def Value.pyStr : Value → String
  | .str s => s
  | .int n => toString n
  | .dict _ => "dict"

/-- Python truthiness of a value, as used by `if row.get('TIMESTAMP'):`. -/
def Value.truthy : Value → Bool
  | .str s => s != ""
  | .int n => n != 0
  | .dict l => !l.isEmpty

/-- Python `v == "lit"` for a dynamic `v`: true only when `v` is that string. -/
def Value.isStrEq : Value → String → Bool
  | .str s, t => s == t
  | _, _ => false

/-- The Python exceptions raised (or propagated) by the embedded code. -/
inductive PyError where
  | key_error : String → PyError
  | value_error : String → PyError
  | type_error : String → PyError
  | exception : String → PyError
  | login_exception : PyError

/-! ## Calendar arithmetic backing `datetime.timestamp()` -/

/-- Gregorian leap-year test. -/
def isLeapYear (y : Nat) : Bool :=
  (y % 4 == 0 && y % 100 != 0) || y % 400 == 0

/-- Number of days in a month, used to validate parsed dates the way
`datetime.strptime` does. -/
def days_in_month (y : Nat) : Nat → Nat
  | 1 => 31
  | 2 => if isLeapYear y then 29 else 28
  | 3 => 31
  | 4 => 30
  | 5 => 31
  | 6 => 30
  | 7 => 31
  | 8 => 31
  | 9 => 30
  | 10 => 31
  | 11 => 30
  | 12 => 31
  | _ => 0

/-- Days from 1970-01-01 to the given civil date (proleptic Gregorian),
the standard era-based algorithm. -/
def days_from_civil (y m d : Int) : Int :=
  let y' := if m ≤ 2 then y - 1 else y
  let era := Int.fdiv y' 400
  let yoe := y' - era * 400
  let mp := Int.fmod (m + 9) 12
  let doy := (153 * mp + 2) / 5 + d - 1
  let doe := yoe * 365 + yoe / 4 - yoe / 100 + doy
  era * 146097 + doe - 719468

/-- Seconds since the Unix epoch of a UTC civil date-time. -/
def epoch_seconds_utc (y mo d h mi s : Nat) : Int :=
  days_from_civil (y : Int) (mo : Int) (d : Int) * 86400 +
    ((h * 3600 + mi * 60 + s : Nat) : Int)

/-! ## Fixed-format parsing backing `datetime.strptime` -/

/-- Read exactly `n` decimal digits, most significant first, extending the
accumulator `acc`. -/
def readFixedNat : Nat → Nat → List Char → Option (Nat × List Char)
  | 0, acc, cs => some (acc, cs)
  | n + 1, acc, cs =>
    match cs with
    | c :: rest =>
      if c.isDigit then readFixedNat n (acc * 10 + (c.toNat - 48)) rest else none
    | [] => none

/-- Consume one expected literal character. -/
def readLit : Char → List Char → Option (List Char)
  | _, [] => none
  | c, c' :: rest => if c' == c then some rest else none

/-- Numeric value of a digit string. -/
def digitsValue (l : List Char) : Nat :=
  l.foldl (fun a c => a * 10 + (c.toNat - 48)) 0

/-- Read the `%f` directive: one to six digits, zero-padded on the right to
microseconds, exactly as `strptime` does. -/
def readMicroseconds (cs : List Char) : Option (Nat × List Char) :=
  let digs := cs.takeWhile Char.isDigit
  if digs.length == 0 || digs.length > 6 then none
  else some (digitsValue digs * 10 ^ (6 - digs.length), cs.drop digs.length)

/-- Range checks applied by `datetime` when `strptime` builds the value. -/
def validDate (y mo d h mi s : Nat) : Bool :=
  decide (1 ≤ mo) && decide (mo ≤ 12) && decide (1 ≤ d) &&
    decide (d ≤ days_in_month y mo) && decide (h ≤ 23) && decide (mi ≤ 59) &&
    decide (s ≤ 59)

/-- Read the `%z` directive for the offset forms the connector receives:
`Z` or a sign followed by `HHMM`. Returns the offset in seconds. -/
def readTzOffset (cs : List Char) : Option Int :=
  match cs with
  | ['Z'] => some 0
  | '+' :: rest =>
    match readFixedNat 2 0 rest with
    | some (hh, rest2) =>
      match readFixedNat 2 0 rest2 with
      | some (mm, []) =>
        if decide (hh ≤ 23) && decide (mm ≤ 59) then
          some ((hh * 3600 + mm * 60 : Nat) : Int)
        else none
      | _ => none
    | none => none
  | '-' :: rest =>
    match readFixedNat 2 0 rest with
    | some (hh, rest2) =>
      match readFixedNat 2 0 rest2 with
      | some (mm, []) =>
        if decide (hh ≤ 23) && decide (mm ≤ 59) then
          some (-((hh * 3600 + mm * 60 : Nat) : Int))
        else none
      | _ => none
    | none => none
  | _ => none

/-- The inline-event timestamp normalization of `pack_event_into_log`:
`int(datetime.strptime(s, "%Y-%m-%dT%H:%M:%S.%f%z").timestamp() * 1000)`.
Returns epoch milliseconds, `none` where `strptime` raises `ValueError`. -/
def parse_event_timestamp (s : String) : Option Int := do
  let cs := s.toList
  let (y, cs) ← readFixedNat 4 0 cs
  let cs ← readLit '-' cs
  let (mo, cs) ← readFixedNat 2 0 cs
  let cs ← readLit '-' cs
  let (d, cs) ← readFixedNat 2 0 cs
  let cs ← readLit 'T' cs
  let (h, cs) ← readFixedNat 2 0 cs
  let cs ← readLit ':' cs
  let (mi, cs) ← readFixedNat 2 0 cs
  let cs ← readLit ':' cs
  let (sec, cs) ← readFixedNat 2 0 cs
  let cs ← readLit '.' cs
  let (micro, cs) ← readMicroseconds cs
  let off ← readTzOffset cs
  if validDate y mo d h mi sec then
    some ((epoch_seconds_utc y mo d h mi sec - off) * 1000 + ((micro / 1000 : Nat) : Int))
  else none

/-- The CSV-path timestamp normalization of `pack_csv_into_log`:
`pytz.utc.localize(datetime.strptime(s, "%Y%m%d%H%M%S.%f")).replace(microsecond=0).timestamp()`
cast to `int`. Returns epoch seconds (microseconds truncated), `none` where
`strptime` raises `ValueError`. -/
def parse_csv_timestamp (s : String) : Option Int := do
  let cs := s.toList
  let (y, cs) ← readFixedNat 4 0 cs
  let (mo, cs) ← readFixedNat 2 0 cs
  let (d, cs) ← readFixedNat 2 0 cs
  let (h, cs) ← readFixedNat 2 0 cs
  let (mi, cs) ← readFixedNat 2 0 cs
  let (sec, cs) ← readFixedNat 2 0 cs
  let cs ← readLit '.' cs
  let (_micro, cs) ← readMicroseconds cs
  match cs with
  | [] => if validDate y mo d h mi sec then some (epoch_seconds_utc y mo d h mi sec) else none
  | _ => none

example : days_from_civil 1970 1 1 = 0 := by decide
example : days_from_civil 2023 6 15 = 19523 := by decide
example : parse_csv_timestamp "20230615120000.000000" = some 1686830400 := by decide
example : parse_event_timestamp "2023-06-15T12:00:00.000+0000" = some 1686830400000 := by decide

/-! ## Chunking: `extract_row_slice` and the slicing loops -/

/-- The chunk-size constant `CSV_SLICE_SIZE` of the source. -/
def CSV_SLICE_SIZE : Nat := 1000

/-- The `while` loop of `extract_row_slice`: repeatedly `rows.pop()` (remove
the last element, here `getLast` plus `dropLast`) appending it to
`part_rows`, stopping when `rows` is empty or the counter `i` reaches
`CSV_SLICE_SIZE`. Returns the extracted chunk and the remaining working
list. -/
def extract_row_slice_go {α : Type} : List α → List α → Nat → List α × List α
  | [], part, _ => (part, [])
  | r :: rs, part, i =>
    if i + 1 ≥ CSV_SLICE_SIZE then
      (part ++ [(r :: rs).getLast (List.cons_ne_nil r rs)], (r :: rs).dropLast)
    else
      extract_row_slice_go ((r :: rs).dropLast)
        (part ++ [(r :: rs).getLast (List.cons_ne_nil r rs)]) (i + 1)
termination_by rows _ _ => rows.length
decreasing_by
  simp [List.length_dropLast]

/-- `extract_row_slice` of the source: one chunk of up to `CSV_SLICE_SIZE`
rows taken from the tail of the working list, plus what remains of it. -/
def extract_row_slice {α : Type} (rows : List α) : List α × List α :=
  extract_row_slice_go rows [] 0

/-- Closed form of the extraction loop: starting at counter `i`, it pops
`CSV_SLICE_SIZE - i` elements off the tail (or all of them). -/
theorem extract_row_slice_go_spec {α : Type} :
    ∀ (n : Nat) (rows part : List α) (i : Nat), rows.length = n → i < CSV_SLICE_SIZE →
      extract_row_slice_go rows part i =
        (part ++ rows.reverse.take (CSV_SLICE_SIZE - i),
         rows.take (rows.length - (CSV_SLICE_SIZE - i))) := by
  intro n
  induction n with
  | zero =>
    intro rows part i hlen _
    have hrows : rows = [] := List.length_eq_zero.mp hlen
    subst hrows
    simp [extract_row_slice_go]
  | succ m ih =>
    intro rows part i hlen hi
    cases rows with
    | nil => simp at hlen
    | cons r rs =>
      have hne : r :: rs ≠ [] := List.cons_ne_nil r rs
      have hrev : (r :: rs).reverse
          = (r :: rs).getLast hne :: (r :: rs).dropLast.reverse := by
        conv_lhs => rw [← List.dropLast_append_getLast hne]
        simp
      by_cases hcap : i + 1 ≥ CSV_SLICE_SIZE
      · have hi1 : CSV_SLICE_SIZE - i = 0 + 1 := by omega
        simp only [extract_row_slice_go, hcap, if_true, reduceIte]
        rw [hrev, hi1]
        simp only [List.take_succ_cons, List.take_zero, Prod.mk.injEq]
        refine ⟨trivial, ?_⟩
        rw [List.dropLast_eq_take]
      · have hlen' : (r :: rs).dropLast.length = m := by
          simp only [List.length_dropLast]
          omega
        have hih := ih ((r :: rs).dropLast) (part ++ [(r :: rs).getLast hne]) (i + 1)
          hlen' (by omega)
        simp only [extract_row_slice_go, hcap, if_false, reduceIte]
        rw [hih, hrev]
        have hsz : CSV_SLICE_SIZE - i = (CSV_SLICE_SIZE - (i + 1)) + 1 := by omega
        simp only [Prod.mk.injEq]
        constructor
        · rw [hsz, List.take_succ_cons, List.append_assoc]
          rfl
        · rw [hlen', List.dropLast_eq_take, List.take_take]
          congr 1
          simp only [List.length_cons] at hlen ⊢
          omega

/-- Closed form of `extract_row_slice`: the chunk is the reversed tail
segment of up to `CSV_SLICE_SIZE` rows; the remainder is the front segment. -/
theorem extract_row_slice_eq {α : Type} (rows : List α) :
    extract_row_slice rows =
      (rows.reverse.take CSV_SLICE_SIZE, rows.take (rows.length - CSV_SLICE_SIZE)) := by
  have h := extract_row_slice_go_spec rows.length rows [] 0 rfl (by decide)
  simpa [extract_row_slice] using h

theorem extract_row_slice_fst_length {α : Type} (rows : List α) :
    (extract_row_slice rows).1.length = min CSV_SLICE_SIZE rows.length := by
  rw [extract_row_slice_eq]
  simp

theorem extract_row_slice_snd_length {α : Type} (rows : List α) :
    (extract_row_slice rows).2.length = rows.length - CSV_SLICE_SIZE := by
  rw [extract_row_slice_eq]
  simp

theorem extract_row_slice_snd_lt {α : Type} (rows : List α) (h : rows ≠ []) :
    (extract_row_slice rows).2.length < rows.length := by
  rw [extract_row_slice_snd_length]
  have := List.length_pos.mpr h
  have hsz : 0 < CSV_SLICE_SIZE := by decide
  omega

theorem extract_row_slice_fst_pos {α : Type} (rows : List α) (h : rows ≠ []) :
    0 < (extract_row_slice rows).1.length := by
  rw [extract_row_slice_fst_length]
  have := List.length_pos.mpr h
  have hsz : 0 < CSV_SLICE_SIZE := by decide
  omega

theorem extract_row_slice_fst_pos_ne {α : Type} (rows : List α)
    (h : 0 < (extract_row_slice rows).1.length) : rows ≠ [] := by
  intro he
  subst he
  rw [extract_row_slice_eq] at h
  simp at h

/-- Repeated application of `extract_row_slice` until the extracted chunk is
empty, collecting the chunks in extraction order — the loop shape shared by
`build_log_from_event` and `build_log_from_logfile`. -/
def extract_row_slices {α : Type} (rows : List α) : List (List α) :=
  if h : 0 < (extract_row_slice rows).1.length then
    (extract_row_slice rows).1 :: extract_row_slices (extract_row_slice rows).2
  else []
termination_by rows.length
decreasing_by
  exact extract_row_slice_snd_lt rows (extract_row_slice_fst_pos_ne rows h)

/-- Fuel-driven computation of the chunk-size sequence for a row count `n`:
`min n CSV_SLICE_SIZE` repeatedly until exhaustion. -/
def chunkSizesGo : Nat → Nat → List Nat
  | 0, _ => []
  | f + 1, n =>
    if n = 0 then [] else min n CSV_SLICE_SIZE :: chunkSizesGo f (n - CSV_SLICE_SIZE)

/-- The chunk-size sequence for a row count `n`. -/
def chunkSizes (n : Nat) : List Nat :=
  chunkSizesGo n n

theorem chunkSizesGo_zero (f : Nat) : chunkSizesGo f 0 = [] := by
  cases f <;> rfl

theorem chunkSizesGo_congr : ∀ (f f' n : Nat), n ≤ f → n ≤ f' →
    chunkSizesGo f n = chunkSizesGo f' n := by
  intro f
  induction f with
  | zero =>
    intro f' n hf _
    have : n = 0 := by omega
    subst this
    rw [chunkSizesGo_zero, chunkSizesGo_zero]
  | succ m ih =>
    intro f' n hf hf'
    by_cases hn : n = 0
    · subst hn
      rw [chunkSizesGo_zero, chunkSizesGo_zero]
    · obtain ⟨f'', rfl⟩ : ∃ k, f' = k + 1 := by
        cases f' with
        | zero => omega
        | succ k => exact ⟨k, rfl⟩
      simp only [chunkSizesGo, hn, if_false, reduceIte]
      congr 1
      have hsz : 0 < CSV_SLICE_SIZE := by decide
      exact ih f'' (n - CSV_SLICE_SIZE) (by omega) (by omega)

/-- One-step unfolding of `chunkSizes`. -/
theorem chunkSizes_eq (n : Nat) :
    chunkSizes n =
      if n = 0 then [] else min n CSV_SLICE_SIZE :: chunkSizes (n - CSV_SLICE_SIZE) := by
  cases n with
  | zero => rfl
  | succ m =>
    show chunkSizesGo (m + 1) (m + 1) = _
    rw [chunkSizesGo]
    have hn : ¬ (m + 1 = 0) := Nat.succ_ne_zero m
    rw [if_neg hn, if_neg hn]
    have hsz : 0 < CSV_SLICE_SIZE := by decide
    exact congrArg (fun t => min (m + 1) CSV_SLICE_SIZE :: t)
      (chunkSizesGo_congr m (m + 1 - CSV_SLICE_SIZE) (m + 1 - CSV_SLICE_SIZE)
        (by omega) (le_refl _))

/-- The chunk sizes produced by the repeated-extraction loop depend only on
the row count, and are exactly `chunkSizes`. -/
theorem extract_row_slices_sizes {α : Type} :
    ∀ (n : Nat) (rows : List α), rows.length = n →
      (extract_row_slices rows).map List.length = chunkSizes rows.length := by
  intro n
  induction n using Nat.strong_induction_on with
  | _ n ih =>
    intro rows hlen
    by_cases hz : rows.length = 0
    · have h0 : ¬ 0 < (extract_row_slice rows).1.length := by
        rw [extract_row_slice_fst_length, hz]
        simp
      rw [extract_row_slices, dif_neg h0, chunkSizes_eq]
      simp [hz]
    · have hne : rows ≠ [] := by
        intro h; subst h; simp at hz
      have hpos := extract_row_slice_fst_pos rows hne
      rw [extract_row_slices, dif_pos hpos, chunkSizes_eq]
      simp only [hz, if_false, reduceIte, List.map_cons, List.cons.injEq]
      constructor
      · rw [extract_row_slice_fst_length]
        exact Nat.min_comm _ _
      · have hlt := extract_row_slice_snd_lt rows hne
        have hrec := ih (extract_row_slice rows).2.length (by omega) (extract_row_slice rows).2 rfl
        rw [hrec, extract_row_slice_snd_length]

/-- The number of chunks is the ceiling of `n / CSV_SLICE_SIZE`. -/
theorem chunkSizes_length : ∀ n : Nat,
    (chunkSizes n).length = (n + (CSV_SLICE_SIZE - 1)) / CSV_SLICE_SIZE := by
  intro n
  induction n using Nat.strong_induction_on with
  | _ n ih =>
    rw [chunkSizes_eq]
    by_cases hz : n = 0
    · subst hz
      decide
    · have hsz : CSV_SLICE_SIZE = 1000 := rfl
      simp only [hz, if_false, reduceIte, List.length_cons]
      rw [ih (n - CSV_SLICE_SIZE) (by rw [hsz]; omega)]
      rw [hsz]
      omega

/-- Every chunk size is positive and bounded by `CSV_SLICE_SIZE`. -/
theorem chunkSizes_bounds : ∀ (n s : Nat), s ∈ chunkSizes n →
    0 < s ∧ s ≤ CSV_SLICE_SIZE := by
  intro n
  induction n using Nat.strong_induction_on with
  | _ n ih =>
    intro s hs
    rw [chunkSizes_eq] at hs
    by_cases hz : n = 0
    · simp [hz] at hs
    · simp only [hz, if_false, reduceIte, List.mem_cons] at hs
      rcases hs with h | h
      · subst h
        have hsz : 0 < CSV_SLICE_SIZE := by decide
        constructor
        · omega
        · omega
      · have hsz : 0 < CSV_SLICE_SIZE := by decide
        exact ih (n - CSV_SLICE_SIZE) (by omega) s h

/-- The chunks together are a permutation of the original rows: nothing is
lost or duplicated by the pop-based slicing. -/
theorem extract_row_slices_flatten_perm {α : Type} :
    ∀ (n : Nat) (rows : List α), rows.length = n →
      (extract_row_slices rows).flatten.Perm rows := by
  intro n
  induction n using Nat.strong_induction_on with
  | _ n ih =>
    intro rows hlen
    by_cases hne : rows = []
    · subst hne
      have h0 : ¬ 0 < (extract_row_slice (α := α) []).1.length := by
        rw [extract_row_slice_fst_length]
        simp
      rw [extract_row_slices, dif_neg h0]
      simp
    · have hpos := extract_row_slice_fst_pos rows hne
      rw [extract_row_slices, dif_pos hpos]
      simp only [List.flatten_cons]
      have hlt := extract_row_slice_snd_lt rows hne
      have hrest := ih (extract_row_slice rows).2.length (by omega) (extract_row_slice rows).2 rfl
      have hsplit : ((extract_row_slice rows).1 ++ (extract_row_slice rows).2).Perm rows := by
        rw [extract_row_slice_eq]
        show ((rows.reverse.take CSV_SLICE_SIZE) ++
          rows.take (rows.length - CSV_SLICE_SIZE)).Perm rows
        have hperm2 : (rows.take (rows.length - CSV_SLICE_SIZE)).Perm
            (rows.reverse.drop CSV_SLICE_SIZE) := by
          rw [List.drop_reverse]
          exact (List.reverse_perm _).symm
        have hstep := List.Perm.append_left (rows.reverse.take CSV_SLICE_SIZE) hperm2
        have heq : rows.reverse.take CSV_SLICE_SIZE ++ rows.reverse.drop CSV_SLICE_SIZE
            = rows.reverse := List.take_append_drop _ _
        rw [heq] at hstep
        exact hstep.trans (List.reverse_perm rows)
      exact (List.Perm.append_left _ hrest).trans hsplit

/-! ## External collaborators, embedded as data -/

/-- Modelled from the spec: the credential blob `{access_token, instance_url,
token_type}` owned by the Auth Manager (the `Auth` class lives in the `env`
module, outside this file's source). -/
structure Auth where
  access_token : String
  instance_url : String
  token_type : String

/-- Modelled from the spec: the recognized per-query environment keys of a
`Query` object (`id`, `event_type`, `timestamp_attr`, `rename_timestamp`;
the `Query` class lives in the `query` module, outside this file's source).
A missing key makes the corresponding `env.get(key, default)` fall back. -/
structure QueryEnv where
  id : Option (List String) := none
  event_type : Option String := none
  timestamp_attr : Option String := none
  rename_timestamp : Option String := none

/-- Modelled from the spec: the Dedup Ledger adapter interface (the
`DataCache` class lives in the `cache` module, outside this file's source).
Each operation is a pure oracle. -/
structure DataCache where
  check_cached_id : Value → Bool
  can_skip_downloading_record : String → Bool
  retrieve_cached_message_list : String → Option (List String)
  record_or_skip_row : String → Row → Option (List String) → Bool

/-- Outcome of one CSV `download_file` call over the HTTP session: decoded
CSV rows on HTTP 200, an HTTP failure status (the source wraps it in
`SalesforceApiException`), or a transport-level `RequestException`. -/
inductive DlResult where
  | ok : List Row → DlResult
  | httpErr : Int → DlResult
  | transport : DlResult

/-- The mutable per-instance state observed by `build_log_from_logfile`:
the cached credentials plus instrumentation counting download attempts and
reauthentication attempts against the environment oracles. -/
structure DlState where
  auth : Option Auth
  dlCount : Nat
  authCount : Nat

/-- The ambient world of one fetch cycle: the download oracle (indexed by
attempt number), the outcome of a reauthentication (`authenticate`'s boolean
contract, or a raised `LoginException`), the configured dedup cache, the
`hashlib.sha3_256(...).hexdigest()` function, the wall-clock fallbacks, and
the configured per-event-type field allow-list. -/
structure PyEnv where
  downloads : Nat → DlResult
  reauth : Except PyError Bool
  reauth_auth : Auth
  data_cache : Option DataCache
  sha3_hex : String → String
  now_ms : Int
  now_s : Int
  event_type_fields_mapping : List (String × List String)

/-! ## Shared by both packing paths -/

/-- The event type resolved by `query.get_env().get("event_type", record_value)`:
the query override wins, otherwise the dynamic value. -/
def resolved_event_type (query : QueryEnv) (v : Value) : Value :=
  match query.event_type with
  | some s => .str s
  | none => v

/-- Lookup `record_event_type in self.event_type_fields_mapping`: only a
string value can match a key of the mapping. -/
def lookup_event_fields (env : PyEnv) (v : Value) : Option (List String) :=
  match v with
  | .str s => env.event_type_fields_mapping.lookup s
  | _ => none

/-- The log-entry dictionary built at the end of both packing loops:
`{message, attributes}` plus — only when the configured timestamp field name
is exactly `"timestamp"` — a top-level copy of the timestamp. -/
def mk_log_entry (message : String) (attrs : Row) (timestamp_field_name : String)
    (timestamp : Int) : Row :=
  let log_entry : Row := [("message", .str message), ("attributes", .dict attrs)]
  if timestamp_field_name == "timestamp" then
    dset log_entry timestamp_field_name (.int timestamp)
  else log_entry

/-- The `check_cached_id` guard, applied only when a cache is configured. -/
def check_cached (env : PyEnv) (record_id : Value) : Bool :=
  match env.data_cache with
  | some c => c.check_cached_id record_id
  | none => false

/-! ## The inline-event path: `pack_event_into_log` -/

/-- The compound-id loop of `pack_event_into_log`: concatenate
`str(row.get(key, ""))` over the configured id keys in order, raising when a
key is absent from the row. -/
def compound_id_of (row : Row) : List String → String → Except PyError String
  | [], acc => .ok acc
  | key :: rest, acc =>
    if dcontains row key then
      compound_id_of row rest (acc ++ ((dget row key).getD (.str "")).pyStr)
    else
      .error (.exception ("Error building compound id, key " ++ key ++ " not found"))

/-- The id section of the `pack_event_into_log` row loop: an explicit `Id`
is used for the cache check; otherwise a compound id is concatenated, and if
non-empty its hex digest is stamped back as `Id` before the cache check.
Returns `none` when the row is skipped (`continue`). -/
def pack_event_row_id_step (env : PyEnv) (query : QueryEnv) (row : Row) :
    Except PyError (Option Row) :=
  match dget row "Id" with
  | some record_id =>
    if check_cached env record_id then .ok none else .ok (some row)
  | none =>
    match compound_id_of row (query.id.getD []) "" with
    | .error e => .error e
    | .ok compound_id =>
      if compound_id != "" then
        let row' := dset row "Id" (.str (env.sha3_hex compound_id))
        if check_cached env (.str (env.sha3_hex compound_id)) then .ok none
        else .ok (some row')
      else .ok (some row)

/-- The timestamp section of the `pack_event_into_log` row loop: parse the
configured timestamp attribute (a string, or `strptime` raises) or fall back
to the current time with an empty `created_date`. -/
def event_row_timestamp (env : PyEnv) (row : Row) (timestamp_attr : String) :
    Except PyError (String × Int) :=
  match dget row timestamp_attr with
  | some (.str s) =>
    match parse_event_timestamp s with
    | some ts => .ok (s, ts)
    | none => .error (.value_error s)
  | some _ => .error (.type_error "strptime expects a string")
  | none => .ok ("", env.now_ms)

/-- The remainder of the `pack_event_into_log` row loop after the id
section: timestamp, message synthesis from the `attributes.type` sub-dict,
timestamp stamping and log-entry construction. -/
def pack_event_row_rest (env : PyEnv) (query : QueryEnv) (row : Row) :
    Except PyError Row := do
  let timestamp_attr := query.timestamp_attr.getD "CreatedDate"
  let ct ← event_row_timestamp env row timestamp_attr
  let created_date := ct.1
  let timestamp := ct.2
  let message := query.event_type.getD "SFEvent"
  let mr :=
    match dget row "attributes" with
    | some (.dict attributes) =>
      let row' := dremove row "attributes"
      match dget attributes "type" with
      | some (.str t) =>
        let event_type_attr_name := query.event_type.getD t
        (event_type_attr_name, dset row' "EVENT_TYPE" (.str event_type_attr_name))
      | _ => (message, row')
    | _ => (message, row)
  let message := mr.1
  let row := mr.2
  let message := if created_date != "" then message ++ " " ++ created_date else message
  let timestamp_field_name := query.rename_timestamp.getD "timestamp"
  let row := dset row timestamp_field_name (.int timestamp)
  pure (mk_log_entry message row timestamp_field_name timestamp)

/-- One iteration of the `pack_event_into_log` row loop; `none` means the
row was skipped by the dedup cache. -/
def pack_event_row (env : PyEnv) (query : QueryEnv) (row : Row) :
    Except PyError (Option Row) := do
  let step ← pack_event_row_id_step env query row
  match step with
  | none => pure none
  | some row' => do
    let entry ← pack_event_row_rest env query row'
    pure (some entry)

/-- The full `pack_event_into_log` row loop over a chunk. -/
def pack_event_entries (env : PyEnv) (query : QueryEnv) :
    List Row → Except PyError (List Row)
  | [] => .ok []
  | row :: rest => do
    let e ← pack_event_row env query row
    let others ← pack_event_entries env query rest
    match e with
    | some entry => pure (entry :: others)
    | none => pure others

/-- A produced batch: `{log_entries}` on the inline-event path, or the
`{log_type, Id, CreatedDate, LogDate, log_entries}` dictionary of the CSV
path. -/
inductive Batch where
  | event : List Row → Batch
  | logfile : Value → String → Value → Value → List Row → Batch

/-- `pack_event_into_log`: normalize one chunk of inline-event rows. -/
def pack_event_into_log (env : PyEnv) (rows : List Row) (query : QueryEnv) :
    Except PyError Batch := do
  let entries ← pack_event_entries env query rows
  pure (.event entries)

/-! ## The CSV path: `pack_csv_into_log` -/

/-- The field-projection loop of `pack_csv_into_log`: `message[field] =
row[field]` for each allow-listed field in order, raising `KeyError` on the
first absent field. -/
def project_row_fields (row : Row) : List String → Except PyError Row
  | [] => .ok []
  | field :: rest =>
    match dget row field with
    | some v =>
      match project_row_fields row rest with
      | .ok others => .ok ((field, v) :: others)
      | .error e => .error e
    | none => .error (.key_error field)

/-- The timestamp section of the `pack_csv_into_log` row loop: parse a
truthy `TIMESTAMP` cell (second resolution, microseconds truncated) or fall
back to the current UTC time truncated to the second. -/
def csv_row_timestamp (env : PyEnv) (row : Row) : Except PyError Int :=
  match dget row "TIMESTAMP" with
  | some v =>
    if v.truthy then
      match v with
      | .str s =>
        match parse_csv_timestamp s with
        | some ts => .ok ts
        | none => .error (.value_error s)
      | _ => .error (.type_error "strptime expects a string")
    else .ok env.now_s
  | none => .ok env.now_s

/-- One iteration of the `pack_csv_into_log` row loop: project the
allow-listed fields (or keep the whole row), normalize the timestamp, stamp
`LogFileId`, drop `TIMESTAMP`, resolve `EVENT_TYPE`, stamp the renamed
timestamp field and build the log entry with the absolute row index. -/
def pack_csv_row (env : PyEnv) (query : QueryEnv) (record_id : String)
    (record_event_type : Value) (idx : Nat) (row : Row) : Except PyError Row := do
  let message ←
    match lookup_event_fields env record_event_type with
    | some fields => project_row_fields row fields
    | none => Except.ok row
  let timestamp ← csv_row_timestamp env row
  let message := dset message "LogFileId" (.str record_id)
  let message := dremove message "TIMESTAMP"
  let actual_event_type := (dget message "EVENT_TYPE").getD (.str "SFEvent")
  let message := dremove message "EVENT_TYPE"
  let new_event_type := resolved_event_type query actual_event_type
  let message := dset message "EVENT_TYPE" new_event_type
  let timestamp_field_name := query.rename_timestamp.getD "timestamp"
  let message := dset message timestamp_field_name (.int timestamp)
  pure (mk_log_entry ("LogFile " ++ record_id ++ " row " ++ toString idx)
    message timestamp_field_name timestamp)

/-- The enumerated row loop of `pack_csv_into_log`. -/
def pack_csv_rows_loop (env : PyEnv) (query : QueryEnv) (record_id : String)
    (record_event_type : Value) (row_offset : Nat) :
    Nat → List Row → Except PyError (List Row)
  | _, [] => .ok []
  | idx, row :: rest => do
    let e ← pack_csv_row env query record_id record_event_type (idx + row_offset) row
    let others ← pack_csv_rows_loop env query record_id record_event_type row_offset
      (idx + 1) rest
    pure (e :: others)

/-- `pack_csv_into_log`: normalize one chunk of CSV rows of an Event Log
File record into a batch. Accessing the record fields raises `KeyError`
when absent, in source order (`Id` and `EventType` before the loop,
`CreatedDate` and `LogDate` when the result dictionary is built). -/
def pack_csv_into_log (env : PyEnv) (record : Row) (row_offset : Nat)
    (csv_rows : List Row) (query : QueryEnv) : Except PyError Batch :=
  match dget record "Id" with
  | none => .error (.key_error "Id")
  | some idv =>
    match dget record "EventType" with
    | none => .error (.key_error "EventType")
    | some etv =>
      let record_id := idv.pyStr
      let record_event_type := resolved_event_type query etv
      match pack_csv_rows_loop env query record_id record_event_type row_offset 0 csv_rows with
      | .error e => .error e
      | .ok entries =>
        match dget record "CreatedDate" with
        | none => .error (.key_error "CreatedDate")
        | some cd =>
          match dget record "LogDate" with
          | none => .error (.key_error "LogDate")
          | some ld =>
            .ok (.logfile record_event_type record_id cd ld entries)

/-- The chunking `while` loop of `build_log_from_logfile`: slice the working
row list with `extract_row_slice`, pack each non-empty chunk with the
accumulated `row_offset`, stop at the first empty chunk. -/
def pack_csv_chunks (env : PyEnv) (query : QueryEnv) (record : Row)
    (row_offset : Nat) (csv_rows : List Row) : Except PyError (List Batch) :=
  if h : 0 < (extract_row_slice csv_rows).1.length then
    match pack_csv_into_log env record row_offset (extract_row_slice csv_rows).1 query with
    | .error e => .error e
    | .ok batch =>
      match pack_csv_chunks env query record
          (row_offset + (extract_row_slice csv_rows).1.length)
          (extract_row_slice csv_rows).2 with
      | .error e => .error e
      | .ok more => .ok (batch :: more)
  else .ok []
termination_by csv_rows.length
decreasing_by
  exact extract_row_slice_snd_lt csv_rows (extract_row_slice_fst_pos_ne csv_rows h)

/-- `build_log_from_event`: the chunking `while` loop of the inline-event
path, packing each non-empty chunk. -/
def build_log_from_event (env : PyEnv) (records : List Row) (query : QueryEnv) :
    Except PyError (List Batch) :=
  if h : 0 < (extract_row_slice records).1.length then
    match pack_event_into_log env (extract_row_slice records).1 query with
    | .error e => .error e
    | .ok batch =>
      match build_log_from_event env (extract_row_slice records).2 query with
      | .error e => .error e
      | .ok more => .ok (batch :: more)
  else .ok []
termination_by records.length
decreasing_by
  exact extract_row_slice_snd_lt records (extract_row_slice_fst_pos_ne records h)

/-! ## The CSV download path with bounded reauthentication -/

/-- The skip guard of `build_log_from_logfile`: only `Hourly` records with a
configured cache reporting the file as fully processed are skipped. -/
def can_skip_record (env : PyEnv) (interval : Value) (record_id : String) : Bool :=
  interval.isStrEq "Hourly" &&
    (match env.data_cache with
     | some c => c.can_skip_downloading_record record_id
     | none => false)

/-- `retrieve_cached_message_list` applied only when a cache is configured
(`None if not self.data_cache else ...`). -/
def cached_messages_for (env : PyEnv) (record_id : String) : Option (List String) :=
  match env.data_cache with
  | none => none
  | some c => c.retrieve_cached_message_list record_id

/-- `parse_csv`: keep each CSV row unless a configured cache's
`record_or_skip_row` reports it as already delivered. -/
def parse_csv_rows (env : PyEnv) (record_id : String)
    (cached : Option (List String)) (rows : List Row) : List Row :=
  rows.filter (fun row =>
    match env.data_cache with
    | some c => !(c.record_or_skip_row record_id row cached)
    | none => true)

/-- `build_log_from_logfile`: extract the record fields (raising `KeyError`
in source order), apply the Hourly skip guard, retrieve cached row hashes,
download, and on HTTP 401 with `retry` set clear the credentials,
reauthenticate and recurse exactly once with `retry := False`. Any other
failure abandons the record (`None`). The download/auth counters of the
state instrument the environment oracles. -/
def build_log_from_logfile (retry : Bool) (env : PyEnv) (st : DlState)
    (record : Row) (query : QueryEnv) :
    DlState × Except PyError (Option (List Batch)) :=
  match dget record "LogFile" with
  | none => (st, .error (.key_error "LogFile"))
  | some _record_file_name =>
    match dget record "Id" with
    | none => (st, .error (.key_error "Id"))
    | some idv =>
      match dget record "Interval" with
      | none => (st, .error (.key_error "Interval"))
      | some interval =>
        match dget record "EventType" with
        | none => (st, .error (.key_error "EventType"))
        | some _etv =>
          let record_id := idv.pyStr
          if can_skip_record env interval record_id then (st, .ok none)
          else
            let cached_messages := cached_messages_for env record_id
            let st1 : DlState := { st with dlCount := st.dlCount + 1 }
            match env.downloads st.dlCount with
            | .ok rows =>
              let csv_rows := parse_csv_rows env record_id cached_messages rows
              match pack_csv_chunks env query record 0 csv_rows with
              | .ok logs => (st1, .ok (some logs))
              | .error e => (st1, .error e)
            | .httpErr code =>
              if code == 401 then
                match retry with
                | true =>
                  let st2 : DlState :=
                    { st1 with auth := none, authCount := st1.authCount + 1 }
                  match env.reauth with
                  | .error e => (st2, .error e)
                  | .ok true =>
                    build_log_from_logfile false env
                      { st2 with auth := some env.reauth_auth } record query
                  | .ok false => (st2, .ok none)
                | false => (st1, .ok none)
              else (st1, .ok none)
            | .transport => (st1, .ok none)
termination_by (if retry then 1 else 0)
decreasing_by
  decide

/-! ## Response classification and routing -/

/-- `is_logfile_response`: a non-empty `records` array is a log-file
response iff its first record carries `LogFile`; an empty array counts as a
log-file response. -/
def is_logfile_response (records : List Row) : Bool :=
  match records with
  | r :: _ => dcontains r "LogFile"
  | [] => true

/-- The record loop of the log-file branch of `fetch_logs_from_single_req`:
each record carrying `LogFile` is processed, a `None` result is dropped, a
raised exception propagates. -/
def process_logfile_records (env : PyEnv) (query : QueryEnv) :
    DlState → List Row → DlState × Except PyError (List Batch)
  | st, [] => (st, .ok [])
  | st, record :: rest =>
    if dcontains record "LogFile" then
      match build_log_from_logfile true env st record query with
      | (st', .error e) => (st', .error e)
      | (st', .ok none) => process_logfile_records env query st' rest
      | (st', .ok (some bs)) =>
        match process_logfile_records env query st' rest with
        | (st'', .error e) => (st'', .error e)
        | (st'', .ok ls) => (st'', .ok (bs ++ ls))
    else process_logfile_records env query st rest

/-- `fetch_logs_from_single_req` from the `records` array of the query
response onward: route by `is_logfile_response` into the log-file loop or
`build_log_from_event`. -/
def fetch_logs_from_single_req (env : PyEnv) (st : DlState) (records : List Row)
    (query : QueryEnv) : DlState × Except PyError (List Batch) :=
  if is_logfile_response records then
    process_logfile_records env query st records
  else
    (st, build_log_from_event env records query)

/-! ## The OAuth flows -/

/-- Outcome of the token-endpoint `session.post`: an HTTP response with a
status code and (for 200) the decoded credential body, or a raised
connection/transport error. -/
inductive TokenPostResult where
  | response : Int → Auth → TokenPostResult
  | connection_error : TokenPostResult
  | request_error : TokenPostResult

/-- `authenticate_with_password`: a non-200 token response is logged and
reported as boolean failure; a connection or transport error raises
`LoginException`; a 200 response stores the credentials and succeeds. -/
def authenticate_with_password (post : TokenPostResult) :
    Except PyError (Bool × Option Auth) :=
  match post with
  | .response status body =>
    if status != 200 then .ok (false, none)
    else .ok (true, some body)
  | .connection_error => .error .login_exception
  | .request_error => .error .login_exception

/-- `authenticate_with_jwt`: a failure to load the RS256 private key is
reported as boolean failure before any network call; from the token POST
onward the behavior matches the password flow. -/
def authenticate_with_jwt (key_load_ok : Bool) (post : TokenPostResult) :
    Except PyError (Bool × Option Auth) :=
  if !key_load_ok then .ok (false, none)
  else
    match post with
    | .response status body =>
      if status != 200 then .ok (false, none)
      else .ok (true, some body)
    | .connection_error => .error .login_exception
    | .request_error => .error .login_exception

/-! ## The sliding time window -/

/-- The per-instance time-window state: timestamps are modelled as integer
epoch values (the ISO-8601 millisecond strings of the source are
order-isomorphic to them). -/
structure TimeState where
  last_to_timestamp : Int
  time_lag_minutes : Int
  generation_interval : String

/-- The `to_timestamp` computed from the current clock reading `now`:
`utcnow() - timedelta(minutes=time_lag_minutes)`. -/
def compute_to_timestamp (st : TimeState) (now : Int) : Int :=
  now - st.time_lag_minutes

/-- Modelled from the spec: the template substitution of the `query` module
(outside this file's source) — replace the window and interval variables in
the template, timestamps rendered with `toString`. -/
def substitute_window (template : String) (from_ts to_ts : Int) (interval : String) :
    String :=
  ((template.replace "{from_timestamp}" (toString from_ts)).replace
    "{to_timestamp}" (toString to_ts)).replace "{log_interval_type}" interval

/-- `make_single_query`: render the template against a fresh `to_timestamp`
computed from the clock reading `now` and the stored `last_to_timestamp`,
then make it URL-safe. Returns the rendered query together with the
`to_timestamp` that was substituted. -/
def make_single_query (st : TimeState) (now : Int) (template : String) :
    String × Int :=
  let to_timestamp := compute_to_timestamp st now
  let from_timestamp := st.last_to_timestamp
  let query := substitute_window template from_timestamp to_timestamp
    st.generation_interval
  let query := query.replace " " "+"
  (query, to_timestamp)

/-- `slide_time_range`: recompute `utcnow() - time_lag_minutes` at slide
time and store it as the new `last_to_timestamp`. -/
def slide_time_range (st : TimeState) (now : Int) : TimeState :=
  { st with last_to_timestamp := compute_to_timestamp st now }

/-- One `fetch_logs` cycle as seen by the time window: build the query at
clock reading `now_query`, then (after the requests succeed) slide the
window at clock reading `now_slide`. Returns the new state and the rendered
query with its substituted `to_timestamp`. -/
def fetch_logs_window (st : TimeState) (template : String)
    (now_query now_slide : Int) : TimeState × (String × Int) :=
  let q := make_single_query st now_query template
  let st' := slide_time_range st now_slide
  (st', q)

/-! ## Concrete fixtures for closed instantiations -/

/-- A fully concrete environment: every download attempt returns HTTP 401,
reauthentication reports boolean failure, no dedup cache is configured, and
the digest function is a plain injective marker. -/
def cexEnv : PyEnv where
  downloads := fun _ => .httpErr 401
  reauth := .ok false
  reauth_auth := ⟨"tok", "url", "Bearer"⟩
  data_cache := none
  sha3_hex := fun s => "h" ++ s
  now_ms := 5
  now_s := 7
  event_type_fields_mapping := [("ApexSoap", ["A", "B"])]

/-- A concrete Event Log File record with all the fields the SOQL query
selects. -/
def cexRecord : Row :=
  [("LogFile", .str "/services/data/log"), ("Id", .str "ID1"),
   ("Interval", .str "Daily"), ("EventType", .str "ApexSoap"),
   ("CreatedDate", .str "cd"), ("LogDate", .str "ld")]

/-! ## Claim theorems -/

/-- C7: the CSV-path timestamp parser maps `"20230615120000.000000"` to
epoch seconds 1686830400 and the event-path parser maps
`"2023-06-15T12:00:00.000+0000"` to epoch milliseconds 1686830400000 — the
same UTC instant at the two documented resolutions, both reachable through
the row-level timestamp steps of the two packing paths. -/
theorem C7_timestamp_equivalence :
    parse_csv_timestamp "20230615120000.000000" = some 1686830400 ∧
    parse_event_timestamp "2023-06-15T12:00:00.000+0000" = some 1686830400000 ∧
    csv_row_timestamp cexEnv [("TIMESTAMP", .str "20230615120000.000000")]
      = .ok 1686830400 ∧
    event_row_timestamp cexEnv
      [("CreatedDate", .str "2023-06-15T12:00:00.000+0000")] "CreatedDate"
      = .ok ("2023-06-15T12:00:00.000+0000", 1686830400000) ∧
    (1686830400000 : Int) = 1686830400 * 1000 :=
  ⟨rfl, rfl, rfl, rfl, by decide⟩

/-- C5: repeated `extract_row_slice` calls partition any row list of length
`n` into exactly `⌈n / 1000⌉` non-empty chunks of at most 1000 rows each,
each chunk taken off the tail of the working list in reversed order; for
`n = 2500` the chunk sizes are 1000, 1000, 500. -/
theorem C5_chunk_sizing {α : Type} (rows : List α) :
    (extract_row_slices rows).length
      = (rows.length + (CSV_SLICE_SIZE - 1)) / CSV_SLICE_SIZE ∧
    (extract_row_slices rows).map List.length = chunkSizes rows.length ∧
    (∀ c ∈ extract_row_slices rows, 0 < c.length ∧ c.length ≤ CSV_SLICE_SIZE) ∧
    (extract_row_slices rows).flatten.Perm rows ∧
    (extract_row_slice rows).1 = rows.reverse.take CSV_SLICE_SIZE ∧
    chunkSizes 2500 = [1000, 1000, 500] := by
  have hsizes := extract_row_slices_sizes rows.length rows rfl
  refine ⟨?_, hsizes, ?_, extract_row_slices_flatten_perm rows.length rows rfl, ?_, ?_⟩
  · have hlen := congrArg List.length hsizes
    simpa [chunkSizes_length] using hlen
  · intro c hc
    have hmem : c.length ∈ chunkSizes rows.length := by
      rw [← hsizes]
      exact List.mem_map_of_mem List.length hc
    exact chunkSizes_bounds rows.length c.length hmem
  · rw [extract_row_slice_eq]
  · decide

theorem C5_chunk_sizing_witness :
    0 < ([1, 0] : List Nat).length ∧ ([1, 0] : List Nat).length ≤ CSV_SLICE_SIZE := by
  have hx : extract_row_slice ([0, 1] : List Nat) = ([1, 0], []) := by
    rw [extract_row_slice_eq]
    decide
  have hmem : ([1, 0] : List Nat) ∈ extract_row_slices ([0, 1] : List Nat) := by
    rw [extract_row_slices, dif_pos (by rw [hx]; decide)]
    rw [hx]
    exact List.mem_cons_self _ _
  exact (C5_chunk_sizing ([0, 1] : List Nat)).2.2.1 [1, 0] hmem

/-- C1 fails as stated: with the clock advancing between query construction
and `slide_time_range` (lag 5, query built at 100, slide at 101), the new
`last_to_timestamp` is 96 while the `to_timestamp` substituted into the
cycle's query was 95 — they differ, because `slide_time_range` recomputes
`utcnow() - lag` instead of reusing the substituted value. -/
theorem C1_counterexample :
    (fetch_logs_window ⟨90, 5, "Hourly"⟩ "T" 100 101).1.last_to_timestamp = 96 ∧
    (fetch_logs_window ⟨90, 5, "Hourly"⟩ "T" 100 101).2.2 = 95 ∧
    (96 : Int) ≠ 95 :=
  ⟨rfl, rfl, by decide⟩

/-- C1 (amended): after a successful cycle, `last_to_timestamp` is
non-decreasing (given a monotone clock) and equals the slide-time clock
reading minus the lag; it is at least — but not in general equal to — the
`to_timestamp` substituted into that cycle's queries, with equality exactly
when the clock has not advanced between query construction and the slide. -/
theorem C1_window_monotonicity (st : TimeState) (template : String)
    (now_query now_slide : Int) (hclock : now_query ≤ now_slide)
    (hprev : st.last_to_timestamp ≤ now_query - st.time_lag_minutes) :
    st.last_to_timestamp
      ≤ (fetch_logs_window st template now_query now_slide).1.last_to_timestamp ∧
    (fetch_logs_window st template now_query now_slide).2.2
      ≤ (fetch_logs_window st template now_query now_slide).1.last_to_timestamp ∧
    (fetch_logs_window st template now_query now_slide).1.last_to_timestamp
      = now_slide - st.time_lag_minutes ∧
    (now_slide = now_query →
      (fetch_logs_window st template now_query now_slide).1.last_to_timestamp
        = (fetch_logs_window st template now_query now_slide).2.2) := by
  simp only [fetch_logs_window, make_single_query, slide_time_range, compute_to_timestamp]
  refine ⟨by omega, by omega, by trivial, fun h => by omega⟩

theorem C1_window_monotonicity_witness :
    (90 : Int) ≤ (fetch_logs_window ⟨90, 5, "Hourly"⟩ "T" 100 101).1.last_to_timestamp :=
  (C1_window_monotonicity ⟨90, 5, "Hourly"⟩ "T" 100 101 (by decide) (by decide)).1

/-- C9: in both OAuth flows a non-200 token response yields boolean failure
without an exception, while a connection or transport failure during the
token POST raises `LoginException` — a distinct outcome. -/
theorem C9_auth_flows (status : Int) (body : Auth) (hs : status ≠ 200) :
    authenticate_with_password (.response status body) = .ok (false, none) ∧
    authenticate_with_jwt true (.response status body) = .ok (false, none) ∧
    authenticate_with_password .connection_error = .error .login_exception ∧
    authenticate_with_password .request_error = .error .login_exception ∧
    authenticate_with_jwt true .connection_error = .error .login_exception ∧
    authenticate_with_jwt true .request_error = .error .login_exception := by
  refine ⟨?_, ?_, rfl, rfl, rfl, rfl⟩ <;>
    simp [authenticate_with_password, authenticate_with_jwt, hs]

theorem C9_auth_flows_witness :
    authenticate_with_password (.response 401 ⟨"tok", "url", "Bearer"⟩)
      = .ok (false, none) :=
  (C9_auth_flows 401 ⟨"tok", "url", "Bearer"⟩ (by decide)).1

/-- C6: a `records` array is classified as a log-file response exactly when
it is empty or its first record carries `LogFile`; a non-empty array whose
first record lacks `LogFile` is routed to `build_log_from_event`, and an
empty array yields no log entries on either path. -/
theorem C6_response_classification (env : PyEnv) (st : DlState) (query : QueryEnv) :
    (∀ records : List Row, is_logfile_response records = true ↔
      (records = [] ∨ ∃ r rest, records = r :: rest ∧ dcontains r "LogFile" = true)) ∧
    (∀ (r : Row) (rest : List Row), dcontains r "LogFile" = false →
      fetch_logs_from_single_req env st (r :: rest) query
        = (st, build_log_from_event env (r :: rest) query)) ∧
    fetch_logs_from_single_req env st [] query = (st, .ok []) ∧
    build_log_from_event env [] query = .ok [] := by
  refine ⟨?_, ?_, rfl, ?_⟩
  · intro records
    cases records with
    | nil => simp [is_logfile_response]
    | cons r rest =>
      simp only [is_logfile_response, List.cons_ne_nil, false_or]
      constructor
      · intro h
        exact ⟨r, rest, rfl, h⟩
      · rintro ⟨r', rest', heq, hc⟩
        cases heq
        exact hc
  · intro r rest h
    simp [fetch_logs_from_single_req, is_logfile_response, h]
  · have h0 : ¬ 0 < (extract_row_slice ([] : List Row)).1.length := by
      rw [extract_row_slice_fst_length]
      simp
    rw [build_log_from_event, dif_neg h0]

theorem C6_response_classification_witness :
    fetch_logs_from_single_req cexEnv ⟨none, 0, 0⟩ [[("x", Value.int 1)]] {}
      = (⟨none, 0, 0⟩, build_log_from_event cexEnv [[("x", Value.int 1)]] {}) :=
  (C6_response_classification cexEnv ⟨none, 0, 0⟩ {}).2.1 [("x", Value.int 1)] [] rfl

/-! ## Record-id derivation (C4) -/

theorem dget_dset_same (r : Row) (k : String) (v : Value) :
    dget (dset r k v) k = some v := by
  induction r with
  | nil => simp [dset, dget]
  | cons p rest ih =>
    by_cases h : p.1 == k
    · simp [dset, dget, h]
    · simp [dset, dget, h, ih]

/-- A key configured but absent from the row makes the compound-id loop
raise, whatever the accumulator. -/
theorem compound_id_missing (row : Row) (key : String) :
    ∀ (keys : List String) (acc : String), key ∈ keys → dget row key = none →
      ∃ msg, compound_id_of row keys acc = .error (.exception msg) := by
  intro keys
  induction keys with
  | nil =>
    intro acc h _
    simp at h
  | cons k rest ih =>
    intro acc hk hmiss
    by_cases hc : dcontains row k = true
    · simp only [compound_id_of, hc, if_true, reduceIte]
      refine ih _ ?_ hmiss
      rcases List.mem_cons.mp hk with h | h
      · subst h
        rw [dcontains, hmiss] at hc
        simp at hc
      · exact h
    · refine ⟨"Error building compound id, key " ++ k ++ " not found", ?_⟩
      simp only [compound_id_of]
      rw [if_neg (by simpa using hc)]

/-- A row without an explicit `Id` and with a configured id key absent makes
the whole row-packing step raise. -/
theorem pack_event_row_missing (env : PyEnv) (query : QueryEnv) (row : Row)
    (key : String) (hnoid : dget row "Id" = none)
    (hkey : key ∈ query.id.getD []) (hmiss : dget row key = none) :
    ∃ e, pack_event_row env query row = .error e := by
  obtain ⟨msg, hm⟩ := compound_id_missing row key (query.id.getD []) "" hkey hmiss
  refine ⟨.exception msg, ?_⟩
  simp [pack_event_row, pack_event_row_id_step, hnoid, hm, Bind.bind, Except.bind]

/-- Lifting `pack_event_row_missing` through the row loop: any offending row
in the list makes the loop raise. -/
theorem pack_event_entries_missing (env : PyEnv) (query : QueryEnv) (key : String) :
    ∀ (rows : List Row) (row : Row), row ∈ rows → dget row "Id" = none →
      key ∈ query.id.getD [] → dget row key = none →
      ∃ e, pack_event_entries env query rows = .error e := by
  intro rows
  induction rows with
  | nil =>
    intro row h
    simp at h
  | cons r rest ih =>
    intro row hrow hnoid hkey hmiss
    rcases List.mem_cons.mp hrow with h | h
    · subst h
      obtain ⟨e, he⟩ := pack_event_row_missing env query row key hnoid hkey hmiss
      exact ⟨e, by simp [pack_event_entries, he, Bind.bind, Except.bind]⟩
    · rcases hr : pack_event_row env query r with e' | o
      · exact ⟨e', by simp [pack_event_entries, hr, Bind.bind, Except.bind]⟩
      · obtain ⟨e, he⟩ := ih row h hnoid hkey hmiss
        exact ⟨e, by simp [pack_event_entries, hr, he, Bind.bind, Except.bind]⟩

/-- With every configured key present, the compound id is exactly the
in-order concatenation of the stringified values. -/
theorem compound_id_all_present (row : Row) :
    ∀ (keys : List String) (acc : String), (∀ k ∈ keys, dcontains row k = true) →
      compound_id_of row keys acc
        = .ok (keys.foldl (fun a k => a ++ ((dget row k).getD (.str "")).pyStr) acc) := by
  intro keys
  induction keys with
  | nil =>
    intro acc _
    rfl
  | cons k rest ih =>
    intro acc hall
    have hk := hall k (List.mem_cons_self k rest)
    simp only [compound_id_of, hk, if_true, reduceIte, List.foldl_cons]
    exact ih _ (fun k' hk' => hall k' (List.mem_cons_of_mem k hk'))

/-- C4 fails as stated: with the configured id list empty (its default) and
a row lacking `Id`, the concatenated compound key is empty, and the code
stamps no `Id` at all — no hash digest is computed — while still packing the
row. The produced entry's attributes carry no `Id` field. -/
theorem C4_counterexample :
    pack_event_into_log cexEnv [[("A", Value.str "x")]] {} =
      .ok (.event [[("message", Value.str "SFEvent"),
        ("attributes", Value.dict [("A", Value.str "x"), ("timestamp", Value.int 5)]),
        ("timestamp", Value.int 5)]]) ∧
    dcontains [("A", Value.str "x"), ("timestamp", Value.int 5)] "Id" = false :=
  ⟨rfl, rfl⟩

/-- C4 (amended): for a row lacking `Id`, (a) a configured id key absent
from the row raises an exception that is fatal to the whole packing call;
(b) when all configured keys are present, the compound key is the in-order
concatenation of their stringified values, and if it is non-empty (and the
row is not dedup-skipped) its digest is stamped back as `Id`; (c) if the
concatenation is empty — in particular when the configured id list is empty,
its default — no `Id` is stamped and the row is packed unchanged. -/
theorem C4_compound_id (env : PyEnv) (query : QueryEnv) (rows : List Row)
    (row : Row) (key : String)
    (hrow : row ∈ rows) (hnoid : dget row "Id" = none)
    (hkey : key ∈ query.id.getD []) (hmiss : dget row key = none) :
    (∃ e, pack_event_into_log env rows query = .error e) ∧
    (∀ (row' : Row) (keys : List String), keys = query.id.getD [] →
       (∀ k ∈ keys, dcontains row' k = true) →
       compound_id_of row' keys ""
         = .ok (keys.foldl (fun a k => a ++ ((dget row' k).getD (.str "")).pyStr) "")) ∧
    (∀ (row' : Row) (cid : String), dget row' "Id" = none →
       compound_id_of row' (query.id.getD []) "" = .ok cid → cid ≠ "" →
       check_cached env (.str (env.sha3_hex cid)) = false →
       pack_event_row_id_step env query row'
         = .ok (some (dset row' "Id" (.str (env.sha3_hex cid))))) ∧
    (∀ row' : Row, dget row' "Id" = none →
       compound_id_of row' (query.id.getD []) "" = .ok "" →
       pack_event_row_id_step env query row' = .ok (some row')) := by
  refine ⟨?_, ?_, ?_, ?_⟩
  · obtain ⟨e, he⟩ := pack_event_entries_missing env query key rows row hrow hnoid hkey hmiss
    exact ⟨e, by simp [pack_event_into_log, he, Bind.bind, Except.bind]⟩
  · intro row' keys hkeys hall
    exact compound_id_all_present row' keys "" hall
  · intro row' cid hnoid' hcid hne hcache
    simp only [pack_event_row_id_step, hnoid', hcid]
    rw [if_pos (by simpa using hne)]
    simp [hcache]
  · intro row' hnoid' hcid
    simp [pack_event_row_id_step, hnoid', hcid]

theorem C4_compound_id_witness :
    ∃ e, pack_event_into_log cexEnv [[("A", Value.str "x")]]
      { id := some ["K"] } = .error e :=
  (C4_compound_id cexEnv { id := some ["K"] } [[("A", Value.str "x")]]
    [("A", Value.str "x")] "K" (List.Mem.head _) rfl (List.Mem.head _) rfl).1

/-! ## Log-entry shape (C8) -/

/-- The shape shared by every produced log entry: a string `message`, a
dictionary `attributes` carrying the renamed timestamp, and a top-level
timestamp copy exactly when the configured name is `"timestamp"` (otherwise
the entry has only `message` and `attributes` at top level). -/
def entry_shape (tfn : String) (e : Row) : Prop :=
  (∃ m, dget e "message" = some (.str m)) ∧
  (∃ attrs ts, dget e "attributes" = some (.dict attrs) ∧
    dget attrs tfn = some (.int ts) ∧
    (tfn = "timestamp" → dget e "timestamp" = some (.int ts)) ∧
    (tfn ≠ "timestamp" → e.map Prod.fst = ["message", "attributes"]))

/-- Every entry built by `mk_log_entry` over timestamp-stamped attributes
has the common shape. -/
theorem mk_log_entry_shape (message : String) (attrs0 : Row) (tfn : String) (ts : Int) :
    entry_shape tfn (mk_log_entry message (dset attrs0 tfn (.int ts)) tfn ts) := by
  by_cases h : tfn = "timestamp"
  · subst h
    constructor
    · exact ⟨message, by simp [mk_log_entry, dset, dget]⟩
    · refine ⟨dset attrs0 "timestamp" (.int ts), ts, ?_, dget_dset_same _ _ _,
        fun _ => ?_, fun hc => absurd rfl hc⟩
      · simp [mk_log_entry, dset, dget]
      · simp [mk_log_entry, dset, dget]
  · have hb : (tfn == "timestamp") = false := by
      simpa using h
    constructor
    · exact ⟨message, by simp [mk_log_entry, hb, dget]⟩
    · refine ⟨dset attrs0 tfn (.int ts), ts, ?_, dget_dset_same _ _ _,
        fun hc => absurd hc h, fun _ => ?_⟩
      · simp [mk_log_entry, hb, dget]
      · simp [mk_log_entry, hb]

/-- Every successful `pack_event_into_log` row yields a shaped entry. -/
theorem pack_event_row_rest_shape (env : PyEnv) (query : QueryEnv) (row : Row)
    (e : Row) (h : pack_event_row_rest env query row = .ok e) :
    entry_shape (query.rename_timestamp.getD "timestamp") e := by
  unfold pack_event_row_rest at h
  simp only [Bind.bind, Except.bind, pure, Except.pure] at h
  repeat' split at h
  all_goals
    first
      | exact Except.noConfusion h
      | (injection h with h
         subst h
         exact mk_log_entry_shape _ _ _ _)

/-- Every entry produced by the inline-event row loop is shaped. -/
theorem pack_event_entries_shape (env : PyEnv) (query : QueryEnv) :
    ∀ (rows entries : List Row), pack_event_entries env query rows = .ok entries →
      ∀ e ∈ entries, entry_shape (query.rename_timestamp.getD "timestamp") e := by
  intro rows
  induction rows with
  | nil =>
    intro entries h e he
    simp only [pack_event_entries, Except.ok.injEq] at h
    subst h
    simp at he
  | cons r rest ih =>
    intro entries h e he
    rcases hr : pack_event_row env query r with e' | o
    · simp [pack_event_entries, hr, Bind.bind, Except.bind] at h
    · rcases ho : pack_event_entries env query rest with e'' | others
      · simp [pack_event_entries, hr, ho, Bind.bind, Except.bind] at h
      · cases o with
        | none =>
          simp only [pack_event_entries, hr, ho, Bind.bind, Except.bind, pure,
            Except.pure, Except.ok.injEq] at h
          subst h
          exact ih others ho e he
        | some entry =>
          simp only [pack_event_entries, hr, ho, Bind.bind, Except.bind, pure,
            Except.pure, Except.ok.injEq] at h
          subst h
          rcases List.mem_cons.mp he with h' | h'
          · rw [h']
            obtain ⟨row', hrest⟩ : ∃ row',
                pack_event_row_rest env query row' = .ok entry := by
              rcases hstep : pack_event_row_id_step env query r with e3 | step
              · simp [pack_event_row, hstep, Bind.bind, Except.bind] at hr
              · cases step with
                | none =>
                  simp [pack_event_row, hstep, Bind.bind, Except.bind, pure,
                    Except.pure] at hr
                | some row' =>
                  rcases hrest : pack_event_row_rest env query row' with e4 | packed
                  · simp [pack_event_row, hstep, hrest, Bind.bind, Except.bind] at hr
                  · simp only [pack_event_row, hstep, hrest, Bind.bind, Except.bind, pure,
                      Except.pure, Except.ok.injEq, Option.some.injEq] at hr
                    exact ⟨row', hr ▸ hrest⟩
            exact pack_event_row_rest_shape env query row' entry hrest
          · exact ih others ho e h'

/-- Every successful `pack_csv_into_log` row yields a shaped entry. -/
theorem pack_csv_row_shape (env : PyEnv) (query : QueryEnv) (record_id : String)
    (ret : Value) (idx : Nat) (row e : Row)
    (h : pack_csv_row env query record_id ret idx row = .ok e) :
    entry_shape (query.rename_timestamp.getD "timestamp") e := by
  unfold pack_csv_row at h
  simp only [Bind.bind, Except.bind, pure, Except.pure] at h
  repeat' split at h
  all_goals
    first
      | exact Except.noConfusion h
      | (injection h with h
         subst h
         exact mk_log_entry_shape _ _ _ _)

/-- Every entry produced by the CSV row loop is shaped. -/
theorem pack_csv_rows_shape (env : PyEnv) (query : QueryEnv) (record_id : String)
    (ret : Value) (row_offset : Nat) :
    ∀ (idx : Nat) (rows entries : List Row),
      pack_csv_rows_loop env query record_id ret row_offset idx rows = .ok entries →
      ∀ e ∈ entries, entry_shape (query.rename_timestamp.getD "timestamp") e := by
  intro idx rows
  induction rows generalizing idx with
  | nil =>
    intro entries h e he
    simp only [pack_csv_rows_loop, Except.ok.injEq] at h
    subst h
    simp at he
  | cons r rest ih =>
    intro entries h e he
    rcases hr : pack_csv_row env query record_id ret (idx + row_offset) r with e' | packed
    · simp [pack_csv_rows_loop, hr, Bind.bind, Except.bind] at h
    · rcases ho : pack_csv_rows_loop env query record_id ret row_offset (idx + 1) rest
        with e'' | others
      · simp [pack_csv_rows_loop, hr, ho, Bind.bind, Except.bind] at h
      · simp only [pack_csv_rows_loop, hr, ho, Bind.bind, Except.bind, pure,
          Except.pure, Except.ok.injEq] at h
        subst h
        rcases List.mem_cons.mp he with h' | h'
        · subst h'
          exact pack_csv_row_shape env query record_id ret (idx + row_offset) r e hr
        · exact ih (idx + 1) others ho e h'

/-- C8 fails as stated: with `rename_timestamp` configured to `"ts"`, the
produced entry stamps the timestamp only inside `attributes` — there is no
top-level `"ts"` field, because the source adds the top-level copy only when
the configured name is exactly `"timestamp"`. -/
theorem C8_counterexample :
    pack_event_into_log cexEnv [[("A", Value.str "x")]]
      { rename_timestamp := some "ts" } =
      .ok (.event [[("message", Value.str "SFEvent"),
        ("attributes", Value.dict [("A", Value.str "x"), ("ts", Value.int 5)])]]) ∧
    dcontains [("message", Value.str "SFEvent"),
      ("attributes", Value.dict [("A", Value.str "x"), ("ts", Value.int 5)])] "ts"
      = false :=
  ⟨rfl, rfl⟩

/-- C8 (amended): every produced log entry (on both packing paths) is
`{message: string, attributes: dict}` with the computed epoch timestamp
stamped inside `attributes` under the configured `rename_timestamp` name; a
top-level copy of the timestamp is present exactly when that name is
`"timestamp"` (the default) — otherwise the entry has only `message` and
`attributes` at top level. -/
theorem C8_entry_shape (env : PyEnv) (query : QueryEnv) :
    (∀ (rows entries : List Row), pack_event_entries env query rows = .ok entries →
       ∀ e ∈ entries, entry_shape (query.rename_timestamp.getD "timestamp") e) ∧
    (∀ (record_id : String) (ret : Value) (row_offset idx : Nat)
       (rows entries : List Row),
       pack_csv_rows_loop env query record_id ret row_offset idx rows = .ok entries →
       ∀ e ∈ entries, entry_shape (query.rename_timestamp.getD "timestamp") e) :=
  ⟨fun rows entries h e he => pack_event_entries_shape env query rows entries h e he,
   fun record_id ret row_offset idx rows entries h e he =>
    pack_csv_rows_shape env query record_id ret row_offset idx rows entries h e he⟩

theorem C8_entry_shape_witness :
    entry_shape "timestamp" [("message", Value.str "SFEvent"),
      ("attributes", Value.dict [("A", Value.str "x"), ("timestamp", Value.int 5)]),
      ("timestamp", Value.int 5)] :=
  (C8_entry_shape cexEnv {}).1 [[("A", Value.str "x")]]
    [[("message", Value.str "SFEvent"),
      ("attributes", Value.dict [("A", Value.str "x"), ("timestamp", Value.int 5)]),
      ("timestamp", Value.int 5)]] rfl _ (List.Mem.head _)

/-! ## Unguarded projection of allow-listed fields (C10) -/

/-- An allow-listed field absent from the row makes the projection loop
raise `KeyError` at the first such field. -/
theorem project_row_fields_missing (row : Row) (f : String) :
    ∀ fields : List String, f ∈ fields → dget row f = none →
      ∃ k, k ∈ fields ∧ dget row k = none ∧
        project_row_fields row fields = .error (.key_error k) := by
  intro fields
  induction fields with
  | nil =>
    intro h _
    simp at h
  | cons g rest ih =>
    intro hf hmiss
    rcases hg : dget row g with _ | v
    · exact ⟨g, List.mem_cons_self _ _, hg, by simp [project_row_fields, hg]⟩
    · have hf' : f ∈ rest := by
        rcases List.mem_cons.mp hf with h | h
        · subst h
          rw [hg] at hmiss
          exact absurd hmiss (by simp)
        · exact h
      obtain ⟨k, hk1, hk2, hk3⟩ := ih hf' hmiss
      exact ⟨k, List.mem_cons_of_mem _ hk1, hk2,
        by simp [project_row_fields, hg, hk3]⟩

/-- A row missing an allow-listed field makes `pack_csv_row` raise
`KeyError` instead of skipping or null-filling the field. -/
theorem pack_csv_row_missing (env : PyEnv) (query : QueryEnv) (record_id : String)
    (ret : Value) (idx : Nat) (row : Row) (fields : List String) (f : String)
    (hmap : lookup_event_fields env ret = some fields)
    (hf : f ∈ fields) (hmiss : dget row f = none) :
    ∃ k, k ∈ fields ∧ dget row k = none ∧
      pack_csv_row env query record_id ret idx row = .error (.key_error k) := by
  obtain ⟨k, hk1, hk2, hk3⟩ := project_row_fields_missing row f fields hf hmiss
  refine ⟨k, hk1, hk2, ?_⟩
  simp [pack_csv_row, hmap, hk3, Bind.bind, Except.bind]

/-- Lifting through the enumerated row loop: any offending row in the list
makes the loop raise. -/
theorem pack_csv_rows_loop_missing (env : PyEnv) (query : QueryEnv)
    (record_id : String) (ret : Value) (row_offset : Nat) (fields : List String)
    (f : String) (hmap : lookup_event_fields env ret = some fields)
    (hf : f ∈ fields) :
    ∀ (idx : Nat) (rows : List Row) (row : Row), row ∈ rows → dget row f = none →
      ∃ e, pack_csv_rows_loop env query record_id ret row_offset idx rows
        = .error e := by
  intro idx rows
  induction rows generalizing idx with
  | nil =>
    intro row h _
    simp at h
  | cons r rest ih =>
    intro row hrow hmiss
    rcases List.mem_cons.mp hrow with h | h
    · subst h
      obtain ⟨k, _, _, hk⟩ := pack_csv_row_missing env query record_id ret
        (idx + row_offset) row fields f hmap hf hmiss
      exact ⟨.key_error k, by simp [pack_csv_rows_loop, hk, Bind.bind, Except.bind]⟩
    · rcases hr : pack_csv_row env query record_id ret (idx + row_offset) r
        with e' | packed
      · exact ⟨e', by simp [pack_csv_rows_loop, hr, Bind.bind, Except.bind]⟩
      · obtain ⟨e, he⟩ := ih (idx + 1) row h hmiss
        exact ⟨e, by simp [pack_csv_rows_loop, hr, he, Bind.bind, Except.bind]⟩

/-- C10: when the record's resolved event type has an entry in the
event-type field allow-list, each configured field is read from the CSV row
by unguarded indexing: a row missing an allow-listed field makes its
row-packing step raise `KeyError` (at the first missing field), and the
whole `pack_csv_into_log` call raises instead of skipping or null-filling
the field. -/
theorem C10_unguarded_projection (env : PyEnv) (query : QueryEnv) (record : Row)
    (row_offset : Nat) (csv_rows : List Row) (row : Row) (f : String)
    (idv etv : Value) (fields : List String)
    (hid : dget record "Id" = some idv) (het : dget record "EventType" = some etv)
    (hmap : lookup_event_fields env (resolved_event_type query etv) = some fields)
    (hrow : row ∈ csv_rows) (hf : f ∈ fields) (hmiss : dget row f = none) :
    (∃ e, pack_csv_into_log env record row_offset csv_rows query = .error e) ∧
    (∀ idx : Nat, ∃ k, k ∈ fields ∧ dget row k = none ∧
      pack_csv_row env query idv.pyStr (resolved_event_type query etv) idx row
        = .error (.key_error k)) := by
  constructor
  · obtain ⟨e, he⟩ := pack_csv_rows_loop_missing env query idv.pyStr
      (resolved_event_type query etv) row_offset fields f hmap hf 0 csv_rows row
      hrow hmiss
    refine ⟨e, ?_⟩
    simp [pack_csv_into_log, hid, het, he]
  · intro idx
    exact pack_csv_row_missing env query idv.pyStr (resolved_event_type query etv)
      idx row fields f hmap hf hmiss

theorem C10_unguarded_projection_witness :
    ∃ e, pack_csv_into_log cexEnv cexRecord 0 [[("A", Value.str "x")]] {}
      = .error e :=
  (C10_unguarded_projection cexEnv {} cexRecord 0 [[("A", Value.str "x")]]
    [("A", Value.str "x")] "B" (Value.str "ID1") (Value.str "ApexSoap") ["A", "B"]
    rfl rfl rfl (List.Mem.head _) (by decide) rfl).1

/-! ## Bounded reauthentication and the Hourly skip (C2, C3) -/

/-- `cached_messages_for` spelled through the optional cache. -/
theorem cached_messages_for_bind (env : PyEnv) (rid : String) :
    cached_messages_for env rid
      = env.data_cache.bind (fun c => c.retrieve_cached_message_list rid) := by
  cases hdc : env.data_cache <;> simp [cached_messages_for, hdc]

/-- Download-counter behavior of any non-skipped `build_log_from_logfile`
call at `retry = true`: the counter strictly increases, by at most two, and
at most one reauthentication attempt is recorded. -/
theorem build_true_counts (env : PyEnv) (st : DlState) (record : Row)
    (query : QueryEnv) (lf idv intv etv : Value)
    (hlf : dget record "LogFile" = some lf) (hid : dget record "Id" = some idv)
    (hint : dget record "Interval" = some intv)
    (het : dget record "EventType" = some etv)
    (hskip : can_skip_record env intv idv.pyStr = false) :
    st.dlCount < (build_log_from_logfile true env st record query).1.dlCount ∧
    (build_log_from_logfile true env st record query).1.dlCount ≤ st.dlCount + 2 ∧
    (build_log_from_logfile true env st record query).1.authCount
      ≤ st.authCount + 1 := by
  rcases hdl : env.downloads st.dlCount with rows | code | _
  · rcases hpk : pack_csv_chunks env query record 0
        (parse_csv_rows env idv.pyStr (cached_messages_for env idv.pyStr) rows)
      with e | logs <;>
      simp [build_log_from_logfile, hlf, hid, hint, het, hskip, hdl, hpk]
  · by_cases hc : code = 401
    · subst hc
      rcases hre : env.reauth with e | b
      · simp [build_log_from_logfile, hlf, hid, hint, het, hskip, hdl, hre]
      · cases b with
        | false =>
          simp [build_log_from_logfile, hlf, hid, hint, het, hskip, hdl, hre]
        | true =>
          rcases hdl2 : env.downloads (st.dlCount + 1) with rows2 | code2 | _
          · rcases hpk2 : pack_csv_chunks env query record 0
                (parse_csv_rows env idv.pyStr (cached_messages_for env idv.pyStr)
                  rows2) with e2 | logs2 <;>
              simp [build_log_from_logfile, hlf, hid, hint, het, hskip, hdl, hre,
                hdl2, hpk2] <;> omega
          · by_cases hc2 : code2 = 401
            · subst hc2
              simp [build_log_from_logfile, hlf, hid, hint, het, hskip, hdl, hre,
                hdl2] <;> omega
            · simp [build_log_from_logfile, hlf, hid, hint, het, hskip, hdl, hre,
                hdl2, hc2] <;> omega
          · simp [build_log_from_logfile, hlf, hid, hint, het, hskip, hdl, hre,
              hdl2] <;> omega
    · simp [build_log_from_logfile, hlf, hid, hint, het, hskip, hdl, hc]
  · simp [build_log_from_logfile, hlf, hid, hint, het, hskip, hdl]

/-- C2: for any non-skipped record the `retry = true` download protocol
performs at most two download attempts and at most one reauthentication; a
first 401 with failed reauthentication, or a 401 on both attempts, returns
no entries (`None`) without raising; a non-401 HTTP failure or a transport
failure abandons the record after a single attempt. -/
theorem C2_bounded_reauth (env : PyEnv) (st : DlState) (record : Row)
    (query : QueryEnv) (lf idv intv etv : Value)
    (hlf : dget record "LogFile" = some lf) (hid : dget record "Id" = some idv)
    (hint : dget record "Interval" = some intv)
    (het : dget record "EventType" = some etv)
    (hskip : can_skip_record env intv idv.pyStr = false) :
    ((build_log_from_logfile true env st record query).1.dlCount ≤ st.dlCount + 2 ∧
     (build_log_from_logfile true env st record query).1.authCount
       ≤ st.authCount + 1) ∧
    (env.downloads st.dlCount = .httpErr 401 → env.reauth = .ok false →
      build_log_from_logfile true env st record query
        = ({ auth := none, dlCount := st.dlCount + 1,
             authCount := st.authCount + 1 }, .ok none)) ∧
    (env.downloads st.dlCount = .httpErr 401 → env.reauth = .ok true →
      env.downloads (st.dlCount + 1) = .httpErr 401 →
      build_log_from_logfile true env st record query
        = ({ auth := some env.reauth_auth, dlCount := st.dlCount + 2,
             authCount := st.authCount + 1 }, .ok none)) ∧
    (∀ code : Int, code ≠ 401 → env.downloads st.dlCount = .httpErr code →
      build_log_from_logfile true env st record query
        = ({ st with dlCount := st.dlCount + 1 }, .ok none)) ∧
    (env.downloads st.dlCount = .transport →
      build_log_from_logfile true env st record query
        = ({ st with dlCount := st.dlCount + 1 }, .ok none)) := by
  have hb := build_true_counts env st record query lf idv intv etv
    hlf hid hint het hskip
  refine ⟨⟨hb.2.1, hb.2.2⟩, ?_, ?_, ?_, ?_⟩
  · intro h401 hre
    simp [build_log_from_logfile, hlf, hid, hint, het, hskip, h401, hre]
  · intro h401 hre h401b
    simp [build_log_from_logfile, hlf, hid, hint, het, hskip, h401, hre, h401b]
  · intro code hc h
    simp [build_log_from_logfile, hlf, hid, hint, het, hskip, h, hc]
  · intro h
    simp [build_log_from_logfile, hlf, hid, hint, het, hskip, h]

theorem C2_bounded_reauth_witness :
    build_log_from_logfile true cexEnv ⟨none, 0, 0⟩ cexRecord {}
      = ({ auth := none, dlCount := 1, authCount := 1 }, .ok none) :=
  (C2_bounded_reauth cexEnv ⟨none, 0, 0⟩ cexRecord {}
    (Value.str "/services/data/log") (Value.str "ID1") (Value.str "Daily")
    (Value.str "ApexSoap") rfl rfl rfl rfl rfl).2.1 rfl rfl

/-- C3: a record is skipped before any download exactly when its `Interval`
is `"Hourly"`, a dedup cache is configured and the cache reports the record
as fully processed; a `Daily` record is never skipped this way — its
download is always attempted, with the previously cached per-row message
hashes retrieved from the cache for row-level dedup of the parsed CSV. -/
theorem C3_hourly_skip (env : PyEnv) (st : DlState) (record : Row)
    (query : QueryEnv) (lf idv intv etv : Value)
    (hlf : dget record "LogFile" = some lf) (hid : dget record "Id" = some idv)
    (hint : dget record "Interval" = some intv)
    (het : dget record "EventType" = some etv) :
    (can_skip_record env intv idv.pyStr = true →
      build_log_from_logfile true env st record query = (st, .ok none)) ∧
    (can_skip_record env intv idv.pyStr = false →
      st.dlCount < (build_log_from_logfile true env st record query).1.dlCount) ∧
    (can_skip_record env intv idv.pyStr = true ↔
      (intv.isStrEq "Hourly" = true ∧
       ∃ c, env.data_cache = some c ∧
         c.can_skip_downloading_record idv.pyStr = true)) ∧
    (intv = .str "Daily" → can_skip_record env intv idv.pyStr = false) ∧
    (∀ rows : List Row, intv = .str "Daily" → env.downloads st.dlCount = .ok rows →
      build_log_from_logfile true env st record query
        = ({ st with dlCount := st.dlCount + 1 },
           (pack_csv_chunks env query record 0
             (parse_csv_rows env idv.pyStr
               (env.data_cache.bind
                 (fun c => c.retrieve_cached_message_list idv.pyStr)) rows)).map
             some)) := by
  have hdaily : intv = .str "Daily" → can_skip_record env intv idv.pyStr = false := by
    intro h
    subst h
    simp [can_skip_record, Value.isStrEq]
  refine ⟨?_, ?_, ?_, hdaily, ?_⟩
  · intro hs
    simp [build_log_from_logfile, hlf, hid, hint, het, hs]
  · intro hs
    exact (build_true_counts env st record query lf idv intv etv
      hlf hid hint het hs).1
  · rcases hdc : env.data_cache with _ | c
    · simp [can_skip_record, hdc]
    · simp only [can_skip_record, hdc, Bool.and_eq_true]
      constructor
      · rintro ⟨h1, h2⟩
        exact ⟨h1, c, rfl, h2⟩
      · rintro ⟨h1, c', hc', h2⟩
        cases hc'
        exact ⟨h1, h2⟩
  · intro rows hd hdl
    have hs := hdaily hd
    rw [← cached_messages_for_bind]
    rcases hpk : pack_csv_chunks env query record 0
        (parse_csv_rows env idv.pyStr (cached_messages_for env idv.pyStr) rows)
      with e | logs <;>
      simp [build_log_from_logfile, hlf, hid, hint, het, hs, hdl, hpk, Except.map]

theorem C3_hourly_skip_witness :
    can_skip_record cexEnv (Value.str "Daily") "ID1" = false :=
  (C3_hourly_skip cexEnv ⟨none, 0, 0⟩ cexRecord {}
    (Value.str "/services/data/log") (Value.str "ID1") (Value.str "Daily")
    (Value.str "ApexSoap") rfl rfl rfl rfl).2.2.2.1 rfl

end Sf
